import Mathlib

/-!
A shallow embedding of `src/image_optimizer.py` (batch image optimizer with
CSV/HTML reporting).  The per-file optimization pipeline — `sizeof_fmt`,
`analyze_folder`, `parse_resize`, `save_image`, `process_one` and the
dispatch portion of `main` — is translated into executable Lean definitions.

Modelling conventions:
* Python byte sizes are `ℕ`, Python ints are `ℤ`, Python floats are modelled
  exactly over `ℚ` (the spec's claims about float values are stated "within
  floating tolerance", which the exact rational value witnesses).
* A Python function that can raise an uncaught exception is modelled as
  `Except String α`: `Except.error` is an exception propagating out of the
  function, `Except.ok` is a normal return.
* The filesystem is an explicit value (`FS`): a directory listing plus a map
  from paths to file entries.  A file entry carries its byte size and,
  when the bytes decode as an image, the decoded image.
* The external codec (Pillow) is modelled at the interface level: decoding
  yields a `PyImage` (dimensions, mode, EXIF orientation tag, presence of
  EXIF data); encoding is an abstract function `enc : SaveCall → Option ℕ`
  giving the byte size of the written output (`none` = the save raised).
* `math.floor (math.log n 1024)` is modelled by the exact `Nat.log 1024`,
  and Python's `round(x, 2)` by exact banker's rounding on `ℚ`.
-/

/-! ### String helpers (ASCII models of the Python `str` operations used) -/

/-- Model of Python `str.lower()` (ASCII range, which is all the source uses:
it lowercases resize strings and file extensions). -/
def lowerStr (s : String) : String := String.mk (s.data.map Char.toLower)

/-- Split a character list at the LAST occurrence of `c`:
`splitOnLast c l = some (p, q)` iff `l = p ++ c :: q` with `c ∉ q`;
`none` iff `c ∉ l`. -/
def splitOnLast (c : Char) : List Char → Option (List Char × List Char)
  | [] => none
  | a :: as =>
    match splitOnLast c as with
    | some pq => some (a :: pq.1, pq.2)
    | none => if a = c then some ([], as) else none

/-- Model of `os.path.splitext` (POSIX) on the characters of a path: split
off the extension at the last dot of the basename, unless every character
of the basename before that dot is itself a dot (leading-dot files such as
`.bashrc` have no extension). -/
def splitextData (l : List Char) : List Char × List Char :=
  let dirBase : List Char × List Char :=
    match splitOnLast '/' l with
    | some dq => (dq.1 ++ ['/'], dq.2)
    | none => ([], l)
  match splitOnLast '.' dirBase.2 with
  | none => (l, [])
  | some se =>
    if se.1.all (fun ch => ch == '.') then (l, [])
    else (dirBase.1 ++ se.1, '.' :: se.2)

/-- `os.path.splitext` on strings: `(root, ext)`. -/
def splitext (p : String) : String × String :=
  (String.mk (splitextData p.data).1, String.mk (splitextData p.data).2)

/-- Model of `os.path.join(a, b)` for a single POSIX component `b`:
an absolute `b` wins; otherwise a separator is inserted unless `a` is empty
or already ends in one. -/
def pathJoin (a b : String) : String :=
  if b.data.head? = some '/' then b
  else if a = "" ∨ a.data.getLast? = some '/' then a ++ b
  else a ++ "/" ++ b

/-! ### Module constants (lines 29-30) -/

def SUPPORTED_INPUT_EXT : List String := [".jpeg", ".jpg", ".png", ".webp", ".avif"]

def TARGET_FORMATS : List String := ["original", "jpg", "png", "webp", "avif"]

/-! ### Size Formatter: `sizeof_fmt` (lines 33-40) -/

/-- The unit table `["B", "KB", "MB", "GB"]` of `sizeof_fmt`. -/
def units : List String := ["B", "KB", "MB", "GB"]

/-- Python's `round` to an integer: round half to even (banker's rounding),
modelled exactly on `ℚ`. -/
def roundHalfEven (q : ℚ) : ℤ :=
  if q - ⌊q⌋ < 1/2 then ⌊q⌋
  else if (1 : ℚ)/2 < q - ⌊q⌋ then ⌊q⌋ + 1
  else if ⌊q⌋ % 2 = 0 then ⌊q⌋ else ⌊q⌋ + 1

/-- Python `round(q, 2)`, as an integer count of hundredths. -/
def round2 (q : ℚ) : ℤ := roundHalfEven (q * 100)

/-- Rendering of the Python float `k / 100` (`k` a count of hundredths,
`k ≥ 0` here) by `f"{s}"`: shortest decimal form, at least one digit after
the point, as `repr` prints floats that carry at most two decimals. -/
def renderFixed2 (k : ℤ) : String :=
  let ip := k / 100
  let fp := k % 100
  if fp = 0 then toString ip ++ ".0"
  else if fp % 10 = 0 then toString ip ++ "." ++ toString (fp / 10)
  else if fp < 10 then toString ip ++ ".0" ++ toString fp
  else toString ip ++ "." ++ toString fp

/-- `sizeof_fmt` (lines 33-40).  `i = int(math.floor(math.log(n, 1024)))` is
the exact integer logarithm; `units[i]` is Python list indexing, which
raises `IndexError` when `i ≥ 4` — modelled by `none`. -/
def sizeof_fmt (num_bytes : ℕ) : Option String :=
  if num_bytes = 0 then some "0 B"
  else
    let i := Nat.log 1024 num_bytes
    let s := round2 ((num_bytes : ℚ) / (1024 : ℚ) ^ i)
    match units[i]? with
    | none => none
    | some u => some (renderFixed2 s ++ " " ++ u)

/-- The Size Formatter as §4.4 / claim C8 describe it: `0 ↦ "0 B"`, otherwise
the value scaled by the LARGEST APPLICABLE unit among B, KB, MB, GB (so the
unit index is capped at GB), rounded to two decimals, followed by the unit.
Stated from the spec's words, for comparison with `sizeof_fmt`. -/
def sizeof_fmt_claim (num_bytes : ℕ) : String :=
  if num_bytes = 0 then "0 B"
  else
    let i := min (Nat.log 1024 num_bytes) 3
    renderFixed2 (round2 ((num_bytes : ℚ) / (1024 : ℚ) ^ i)) ++ " " ++ units.getD i ""

/-! ### `parse_resize` (lines 51-57) -/

/-- Digit-string evaluation used by the model of Python `int(str)`. -/
def digitsVal : List Char → ℕ → Option ℕ
  | [], acc => some acc
  | c :: cs, acc => if c.isDigit then digitsVal cs (10 * acc + (c.toNat - 48)) else none

/-- Model of Python `int(str)`: optional surrounding blanks, optional sign,
then a nonempty digit string; `none` models the `ValueError` raise. -/
def pyInt (s : String) : Option ℤ :=
  let l := ((s.data.dropWhile (fun ch => ch == ' ')).reverse.dropWhile
    (fun ch => ch == ' ')).reverse
  match l with
  | [] => none
  | '-' :: rest => if rest.isEmpty then none else (digitsVal rest 0).map (fun n => -(n : ℤ))
  | '+' :: rest => if rest.isEmpty then none else (digitsVal rest 0).map (fun n => (n : ℤ))
  | _ => (digitsVal l 0).map (fun n => (n : ℤ))

/-- Split a character list at the FIRST occurrence of `c`
(Python `split(c, 1)` when `c` occurs). -/
def splitOnFirst (c : Char) : List Char → List Char × List Char
  | [] => ([], [])
  | a :: as =>
    if a = c then ([], as)
    else
      let pq := splitOnFirst c as
      (a :: pq.1, pq.2)

/-- `parse_resize` (lines 51-57).  Empty string: no bounds.  No `x` in the
lowercased string: raises `argparse.ArgumentTypeError` (modelled as
`Except.error` with the message of line 55).  Otherwise split once at the
first `x`; an empty side is `None`, a nonempty side goes through `int`
(whose `ValueError` also propagates). -/
def parse_resize (s : String) : Except String (Option ℤ × Option ℤ) :=
  if s = "" then Except.ok (none, none)
  else if ((lowerStr s).data.contains 'x') = false then
    Except.error "Resize must look like 1920x1080"
  else
    let pieces := splitOnFirst 'x' (lowerStr s).data
    let wPart := String.mk pieces.1
    let hPart := String.mk pieces.2
    match (if wPart = "" then some none else (pyInt wPart).map some),
          (if hPart = "" then some none else (pyInt hPart).map some) with
    | some ow, some oh => Except.ok (ow, oh)
    | _, _ => Except.error "invalid literal for int() with base 10"

/-! ### The image model and the resize step (lines 109-111) -/

/-- The decoded image as the pipeline observes it: pixel dimensions, PIL
mode string, the EXIF orientation tag (1 when absent), and whether the
image carries EXIF data at all. -/
structure PyImage where
  width : ℤ
  height : ℤ
  mode : String
  orientation : ℕ
  hasExif : Bool
deriving DecidableEq, Repr

/-- `ImageOps.exif_transpose` (line 110), at the level this model observes:
orientations 5-8 involve a 90° rotation and so swap width and height,
orientations 2-4 are flips / 180° rotations that keep them; the orientation
tag is consumed (reset to 1) in every case. -/
def exif_transpose (im : PyImage) : PyImage :=
  if im.orientation = 5 ∨ im.orientation = 6 ∨ im.orientation = 7 ∨ im.orientation = 8 then
    { im with width := im.height, height := im.width, orientation := 1 }
  else
    { im with orientation := 1 }

/-- Python truthiness of the `max_w` / `max_h` arguments (ints or `None`):
`None` and `0` are falsy. -/
def truthy : Option ℤ → Bool
  | none => false
  | some v => v != 0

/-- `max_w or im.width` (line 111): first truthy operand of Python `or`. -/
def orDim (o : Option ℤ) (d : ℤ) : ℤ :=
  match o with
  | some v => if v != 0 then v else d
  | none => d

/-- `round_aspect` from Pillow's `Image.thumbnail`: the nearer of floor and
ceil under `key` (floor on ties, as Python `min` keeps the first argument),
clamped to at least 1. -/
def round_aspect (number : ℚ) (key : ℤ → ℚ) : ℤ :=
  max (if key ⌊number⌋ ≤ key ⌈number⌉ then ⌊number⌋ else ⌈number⌉) 1

/-- The size computation of Pillow's `Image.thumbnail((x, y))` on a `w × h`
image: no-op when the image already fits the box, otherwise shrink the
box side that is proportionally too large so the aspect ratio `w / h` is
preserved up to integer rounding. -/
def thumbnailSize (w h x y : ℤ) : ℤ × ℤ :=
  if x ≥ w ∧ y ≥ h then (w, h)
  else
    let aspect : ℚ := (w : ℚ) / (h : ℚ)
    if (x : ℚ) / (y : ℚ) ≥ aspect then
      (round_aspect ((y : ℚ) * aspect) (fun n => |aspect - (n : ℚ) / (y : ℚ)|), y)
    else
      (x, round_aspect ((x : ℚ) / aspect)
        (fun n => if n = 0 then 0 else |aspect - (x : ℚ) / (n : ℚ)|))

/-- Lines 109-111 of `process_one`: when either bound is truthy, apply the
orientation correction and then `thumbnail` with an untruthy bound replaced
by the image's own (corrected) dimension; otherwise leave the image alone. -/
def resizeStep (max_w max_h : Option ℤ) (im : PyImage) : PyImage :=
  if truthy max_w || truthy max_h then
    let imT := exif_transpose im
    let sz := thumbnailSize imT.width imT.height (orDim max_w imT.width) (orDim max_h imT.height)
    { imT with width := sz.1, height := sz.2 }
  else im

/-! ### `save_image` (lines 60-97) -/

/-- The keyword arguments the source passes to `img.save`: each field is
`none`/`false` when the corresponding key is absent from `save_kwargs`. -/
structure SaveKwargs where
  quality : Option ℤ
  optimize : Option Bool
  exif : Bool
deriving DecidableEq, Repr

/-- One call of `img.save(out_path, format=fmt, **save_kwargs)` as handed to
the codec: the destination path, the forced PIL format (`none` = keep the
source format), the (possibly mode-converted) image, and the kwargs. -/
structure SaveCall where
  out_path : String
  fmt : Option String
  img : PyImage
  kwargs : SaveKwargs
deriving DecidableEq, Repr

/-- The `fmt` assignment of the `if/elif` chain of lines 64-77. -/
def pilFmt (target_fmt : String) : Option String :=
  if target_fmt == "jpg" then some "JPEG"
  else if target_fmt == "png" then some "PNG"
  else if target_fmt == "webp" then some "WEBP"
  else if target_fmt == "avif" then some "AVIF"
  else none

/-- The `out_path` reassignment of the `if/elif` chain of lines 64-77:
a forced target format substitutes its extension for the source one. -/
def forced_out_path (out_path target_fmt : String) : String :=
  if target_fmt == "jpg" then (splitext out_path).1 ++ ".jpg"
  else if target_fmt == "png" then (splitext out_path).1 ++ ".png"
  else if target_fmt == "webp" then (splitext out_path).1 ++ ".webp"
  else if target_fmt == "avif" then (splitext out_path).1 ++ ".avif"
  else out_path

/-- The condition of line 79, which line 84 repeats verbatim: a lossy
forced format, or no forced format with a lossy-family source extension.
It gates both the RGB conversion and the `quality`/`optimize` kwargs. -/
def needs_rgb (fmt : Option String) (ext : String) : Bool :=
  (fmt == some "JPEG" || fmt == some "WEBP" || fmt == some "AVIF")
    || (fmt == none && (ext == ".jpg" || ext == ".jpeg" || ext == ".webp" || ext == ".avif"))

/-- `save_image` (lines 60-97).  The `RuntimeError` of line 75 fires exactly
when the target format is `avif` and the AVIF plugin import failed (the
`if/elif` chain reaches that check only in the `avif` branch, so hoisting it
to the front is equivalent).  On the non-raising paths the function builds
the codec call: images outside modes RGB/L are converted to RGB when
`needs_rgb` holds (line 80), `quality` and `optimize` are set under the very
same condition (lines 84-86), and EXIF bytes are attached when requested and
present (lines 88-94). -/
def save_image (img : PyImage) (out_path : String) (target_fmt : String)
    (quality : ℤ) (preserve_metadata : Bool) (avifEnabled : Bool) :
    Except String SaveCall :=
  if target_fmt == "avif" && !avifEnabled then
    Except.error "AVIF output requested, but pillow-avif-plugin is not installed."
  else
    let ext := lowerStr (splitext out_path).2
    let fmt := pilFmt target_fmt
    let outP := forced_out_path out_path target_fmt
    let img2 := if needs_rgb fmt ext && !(img.mode == "RGB" || img.mode == "L") then
      { img with mode := "RGB" } else img
    Except.ok
      { out_path := outP
        fmt := fmt
        img := img2
        kwargs :=
          { quality := if needs_rgb fmt ext then some quality else none
            optimize := if needs_rgb fmt ext then some true else none
            exif := preserve_metadata && img2.hasExif } }

/-! ### Filesystem and codec models -/

/-- One file on disk: its byte size and, if its bytes decode as an image,
the decoded image (`none` = corrupt / not an image). -/
structure FileEntry where
  size : ℕ
  image : Option PyImage
deriving DecidableEq, Repr

/-- The filesystem as the program observes it: the input directory's
listing (`os.listdir`) and the path → file map. -/
structure FS where
  listing : List String
  entries : List (String × FileEntry)
deriving DecidableEq, Repr

def FS.lookup (fs : FS) (path : String) : Option FileEntry :=
  (fs.entries.find? (fun e => e.1 == path)).map (fun e => e.2)

/-- `os.path.getsize`: `none` models the `OSError` raised for a missing
path. -/
def getsize (fs : FS) (path : String) : Option ℕ :=
  (fs.lookup path).map (fun e => e.size)

/-- `Image.open` + implicit decode: raises (`Except.error`) for a missing
path or undecodable bytes. -/
def openImage (fs : FS) (path : String) : Except String PyImage :=
  match fs.lookup path with
  | none => Except.error ("No such file or directory: " ++ path)
  | some e =>
    match e.image with
    | none => Except.error ("cannot identify image file " ++ path)
    | some im => Except.ok im

/-! ### `analyze_folder` (lines 43-48) -/

/-- `analyze_folder`: the listing entries that are files with a supported
(lowercased) extension, and their total byte size. -/
def analyze_folder (fs : FS) (input_folder : String) : List String × ℕ :=
  let files := fs.listing.filter (fun f =>
    (fs.lookup (pathJoin input_folder f)).isSome
      && SUPPORTED_INPUT_EXT.contains (lowerStr (splitext f).2))
  (files, (files.map (fun f => (getsize fs (pathJoin input_folder f)).getD 0)).sum)

/-! ### `process_one` (lines 100-122) -/

/-- The result dict built by `process_one` (one per processed file). -/
structure OptResult where
  filename : String
  status : String
  original_bytes : ℕ
  optimized_bytes : ℕ
  reduction_pct : ℚ
  output_path : String
deriving DecidableEq, Repr

/-- `process_one` (lines 100-122), parameterized by the abstract encoder
`enc` (the byte size the codec writes for a given save call, `none` = the
save raised).  `os.path.getsize(src_path)` on line 105 runs BEFORE the
`try`, so its exception propagates out (`Except.error`).  Everything
inside the `try` — decode, resize, save, reading the output size — is
caught and folded into an error dict carrying the original size twice,
reduction `0.0` and an empty output path (lines 114-117).  On success the
reduction percentage is `(orig - opt) / orig * 100`, or `0.0` for a
zero-byte original (line 119). -/
def process_one (fs : FS) (enc : SaveCall → Option ℕ)
    (input_folder output_folder filename : String)
    (quality : ℤ) (max_w max_h : Option ℤ)
    (preserve_metadata : Bool) (target_format : String)
    (avifEnabled : Bool) : Except String OptResult :=
  let src_path := pathJoin input_folder filename
  let dst_path := pathJoin output_folder filename
  match getsize fs src_path with
  | none => Except.error ("No such file or directory: " ++ src_path)
  | some original_size =>
    let attempt : Except String (String × ℕ) :=
      match openImage fs src_path with
      | Except.error e => Except.error e
      | Except.ok im =>
        let im2 := resizeStep max_w max_h im
        match save_image im2 dst_path target_format quality preserve_metadata avifEnabled with
        | Except.error e => Except.error e
        | Except.ok call =>
          match enc call with
          | none => Except.error ("could not write " ++ call.out_path)
          | some optimized_size => Except.ok (call.out_path, optimized_size)
    match attempt with
    | Except.error e =>
      Except.ok
        { filename := filename
          status := "error: " ++ e
          original_bytes := original_size
          optimized_bytes := original_size
          reduction_pct := 0
          output_path := "" }
    | Except.ok so =>
      Except.ok
        { filename := filename
          status := "ok"
          original_bytes := original_size
          optimized_bytes := so.2
          reduction_pct :=
            if original_size = 0 then 0
            else ((original_size : ℚ) - (so.2 : ℚ)) / (original_size : ℚ) * 100
          output_path := so.1 }

/-- The destination path the worker derives for one source filename:
`os.path.join(output_folder, filename)` (line 104) with the extension
substituted by `save_image` when a format is forced (lines 64-77). -/
def destPath (output_folder filename target_fmt : String) : String :=
  forced_out_path (pathJoin output_folder filename) target_fmt

/-! ### The dispatch portion of `main` (lines 196-223) -/

/-- The argparse surface of `main` that the modelled flow consumes. -/
structure Args where
  input : String
  output : String
  quality : ℤ
  resize : String
  preserve_metadata : Bool
  target_format : String
deriving DecidableEq, Repr

/-- The batch flow of `main` up to result collection (lines 212-223):
analyze the input folder, THEN parse the resize string (line 215; its
exception aborts the run before any file is dispatched), then run
`process_one` for every listed file.  An exception escaping a worker
re-raises at `fut.result()` (line 223), aborting the run, which `mapM`
over `Except` models; report writing is presentation glue and is not
modelled. -/
def mainRun (fs : FS) (enc : SaveCall → Option ℕ) (avifEnabled : Bool)
    (args : Args) : Except String (List OptResult) := do
  let pair := analyze_folder fs args.input
  let wh ← parse_resize args.resize
  pair.1.mapM (fun f =>
    process_one fs enc args.input args.output f args.quality wh.1 wh.2
      args.preserve_metadata args.target_format avifEnabled)

/-! ### Concrete fixtures used by witnesses and counterexamples -/

/-- An encoder that writes 5-byte outputs and never fails. -/
def enc5 : SaveCall → Option ℕ := fun _ => some 5

/-- A small decodable RGB image. -/
def im1 : PyImage := { width := 4, height := 4, mode := "RGB", orientation := 1, hasExif := false }

/-- A filesystem with one decodable 10-byte image `in/a.jpg`. -/
def fsOk : FS := { listing := ["a.jpg"], entries := [("in/a.jpg", { size := 10, image := some im1 })] }

/-- A filesystem whose single listed file `in/a.jpg` does not decode. -/
def fsErr : FS := { listing := ["a.jpg"], entries := [("in/a.jpg", { size := 10, image := none })] }

/-- A run requesting the `avif` target format, no resize. -/
def argsAvif : Args :=
  { input := "in", output := "out", quality := 85, resize := "",
    preserve_metadata := false, target_format := "avif" }

/-- A run whose resize string `"100"` lacks the `x` separator. -/
def argsBadResize : Args :=
  { input := "in", output := "out", quality := 85, resize := "100",
    preserve_metadata := false, target_format := "original" }

/-- The per-file result produced when an `avif` save is requested with the
plugin unavailable. -/
def avifErrRes : OptResult :=
  { filename := "a.jpg",
    status := "error: AVIF output requested, but pillow-avif-plugin is not installed.",
    original_bytes := 10, optimized_bytes := 10, reduction_pct := 0, output_path := "" }

/-- The error result for the undecodable `in/a.jpg` of `fsErr`. -/
def rErr10 : OptResult :=
  { filename := "a.jpg", status := "error: cannot identify image file in/a.jpg",
    original_bytes := 10, optimized_bytes := 10, reduction_pct := 0, output_path := "" }

/-- The success result for `fsOk` under `enc5`. -/
def rOk10 : OptResult :=
  { filename := "a.jpg", status := "ok", original_bytes := 10, optimized_bytes := 5,
    reduction_pct := (((10 : ℕ) : ℚ) - ((5 : ℕ) : ℚ)) / ((10 : ℕ) : ℚ) * 100,
    output_path := "out/a.jpg" }

/-- A plain RGB image for `save_image` fixtures. -/
def imRGB : PyImage := { width := 100, height := 50, mode := "RGB", orientation := 1, hasExif := false }

/-- The save call produced for a forced-`jpg` save of `imRGB`. -/
def callJpg : SaveCall :=
  { out_path := "out/a.jpg", fmt := some "JPEG", img := imRGB,
    kwargs := { quality := some 85, optimize := some true, exif := false } }

/-- The 1000×2000 image of the spec's resize scenario. -/
def im1000 : PyImage := { width := 1000, height := 2000, mode := "RGB", orientation := 1, hasExif := false }

/-- The save call produced for a forced-`png` save of `imRGB`: no quality,
no optimize flag. -/
def callPng : SaveCall :=
  { out_path := "out/a.png", fmt := some "PNG", img := imRGB,
    kwargs := { quality := none, optimize := none, exif := false } }

/-- A set resize bound is at least 1 (a bound of `0` is falsy and is covered
by claim C10; negative bounds make Pillow raise, which the per-file error
path absorbs). -/
def posBound : Option ℤ → Prop
  | none => True
  | some v => 1 ≤ v

instance instDecidablePosBound : (o : Option ℤ) → Decidable (posBound o)
  | none => inferInstanceAs (Decidable True)
  | some v => inferInstanceAs (Decidable (1 ≤ v))

/-! ### Helper lemmas -/

/-- A status built by the except-branch of `process_one` is never `"ok"`. -/
theorem errStatus_ne_ok (e : String) : "error: " ++ e ≠ "ok" := by
  intro h
  have h2 := congrArg String.length h
  rw [String.length_append] at h2
  have h3 : ("error: " : String).length = 7 := rfl
  have h4 : ("ok" : String).length = 2 := rfl
  omega

/-! ### Claim C2 -/

/-- C2 counterexample: `process_one` does NOT return a result for every
input — `os.path.getsize(src_path)` on line 105 runs before the `try`, so
for a source path that cannot be stat'ed the exception propagates out of
the worker instead of becoming an `Error` result. -/
theorem process_one_raises_on_missing_source :
    process_one fsOk enc5 "in" "out" "missing.jpg" 85 none none false "original" true =
      Except.error "No such file or directory: in/missing.jpg" := by
  rfl

/-- C2 (amended): once the source size has been read (line 105), every
exception is caught at the file boundary: `process_one` returns exactly one
`OptimizationResult`, whose `original_bytes` is the size just read, for
every configuration, filesystem and encoder behaviour. -/
theorem process_one_total_after_getsize
    (fs : FS) (enc : SaveCall → Option ℕ)
    (input_folder output_folder filename : String) (quality : ℤ)
    (max_w max_h : Option ℤ) (preserve_metadata : Bool)
    (target_format : String) (avifEnabled : Bool) (n : ℕ)
    (h : getsize fs (pathJoin input_folder filename) = some n) :
    ∃ r, process_one fs enc input_folder output_folder filename quality
        max_w max_h preserve_metadata target_format avifEnabled = Except.ok r ∧
      r.original_bytes = n := by
  simp only [process_one]
  rw [h]
  dsimp only
  split
  · exact ⟨_, rfl, rfl⟩
  · exact ⟨_, rfl, rfl⟩

/-- C2 witness: the amended theorem applied to `fsOk`. -/
theorem process_one_total_after_getsize_witness :
    ∃ r, process_one fsOk enc5 "in" "out" "a.jpg" 85 none none false "original" true =
        Except.ok r ∧ r.original_bytes = 10 :=
  process_one_total_after_getsize fsOk enc5 "in" "out" "a.jpg" 85 none none false
    "original" true 10 (by rfl)

/-! ### Claim C3 -/

/-- C3: whenever `process_one` returns a result whose status is not `"ok"`
(the `Error` statuses of line 116), the result is a no-op record:
`optimized_bytes = original_bytes`, `reduction_pct = 0.0` and an empty
`output_path`. -/
theorem error_result_is_noop
    (fs : FS) (enc : SaveCall → Option ℕ)
    (input_folder output_folder filename : String) (quality : ℤ)
    (max_w max_h : Option ℤ) (preserve_metadata : Bool)
    (target_format : String) (avifEnabled : Bool) (r : OptResult)
    (hr : process_one fs enc input_folder output_folder filename quality
        max_w max_h preserve_metadata target_format avifEnabled = Except.ok r)
    (hs : r.status ≠ "ok") :
    r.optimized_bytes = r.original_bytes ∧ r.reduction_pct = 0 ∧ r.output_path = "" := by
  simp only [process_one] at hr
  cases hg : getsize fs (pathJoin input_folder filename) with
  | none => rw [hg] at hr; exact absurd hr (by simp)
  | some n =>
    rw [hg] at hr
    dsimp only at hr
    split at hr
    · injection hr with h
      subst h
      exact ⟨rfl, rfl, rfl⟩
    · injection hr with h
      subst h
      exact absurd rfl hs

/-- C3 witness: the undecodable file of `fsErr` yields an error result, and
the theorem instantiates on it. -/
theorem error_result_is_noop_witness :
    rErr10.optimized_bytes = rErr10.original_bytes ∧ rErr10.reduction_pct = 0 ∧
      rErr10.output_path = "" :=
  error_result_is_noop fsErr enc5 "in" "out" "a.jpg" 85 none none false "original" true
    rErr10 (by rfl) (by decide)

/-! ### Claim C4 -/

/-- C4: every successful result's `reduction_pct` equals
`(original_bytes - optimized_bytes) / original_bytes * 100`, and equals `0.0`
when `original_bytes = 0` (line 119's truthiness guard avoids the division). -/
theorem success_reduction_formula
    (fs : FS) (enc : SaveCall → Option ℕ)
    (input_folder output_folder filename : String) (quality : ℤ)
    (max_w max_h : Option ℤ) (preserve_metadata : Bool)
    (target_format : String) (avifEnabled : Bool) (r : OptResult)
    (hr : process_one fs enc input_folder output_folder filename quality
        max_w max_h preserve_metadata target_format avifEnabled = Except.ok r)
    (hs : r.status = "ok") :
    (r.original_bytes = 0 → r.reduction_pct = 0) ∧
    (r.original_bytes ≠ 0 →
      r.reduction_pct =
        ((r.original_bytes : ℚ) - (r.optimized_bytes : ℚ)) / (r.original_bytes : ℚ) * 100) := by
  simp only [process_one] at hr
  cases hg : getsize fs (pathJoin input_folder filename) with
  | none => rw [hg] at hr; exact absurd hr (by simp)
  | some n =>
    rw [hg] at hr
    dsimp only at hr
    split at hr
    · injection hr with h
      subst h
      exact absurd hs (errStatus_ne_ok _)
    · injection hr with h
      subst h
      constructor
      · intro h0
        dsimp only at h0 ⊢
        rw [if_pos h0]
      · intro h0
        dsimp only at h0 ⊢
        rw [if_neg h0]

/-- C4 witness: the successful run on `fsOk` (10 bytes in, 5 bytes out). -/
theorem success_reduction_formula_witness :
    (rOk10.original_bytes = 0 → rOk10.reduction_pct = 0) ∧
    (rOk10.original_bytes ≠ 0 →
      rOk10.reduction_pct =
        ((rOk10.original_bytes : ℚ) - (rOk10.optimized_bytes : ℚ)) /
          (rOk10.original_bytes : ℚ) * 100) :=
  success_reduction_formula fsOk enc5 "in" "out" "a.jpg" 85 none none false "original" true
    rOk10 (by rfl) (by rfl)

/-! ### Claim C1 -/

/-- C1 counterexample: with the AVIF capability unavailable, a run that
requests `avif` does NOT fail at startup.  `mainRun` completes normally and
returns a per-file `Error` result: the `RuntimeError` of line 75 fires
inside `save_image` for each file, after the file has been opened and
decoded, and is caught by the per-file handler of `process_one`. -/
theorem avif_missing_yields_per_file_error :
    mainRun fsOk enc5 false argsAvif = Except.ok [avifErrRes] := by rfl

/-- C1 (amended): requesting `avif` with the capability unavailable is
detected per file inside the save path: every file whose size can be read
produces an `Error` result (status never `"ok"`, empty output path,
`optimized_bytes = original_bytes`), and the batch continues. -/
theorem avif_unavailable_errors_every_file
    (fs : FS) (enc : SaveCall → Option ℕ)
    (input_folder output_folder filename : String) (quality : ℤ)
    (max_w max_h : Option ℤ) (preserve_metadata : Bool) (r : OptResult)
    (hr : process_one fs enc input_folder output_folder filename quality
        max_w max_h preserve_metadata "avif" false = Except.ok r) :
    r.status ≠ "ok" ∧ r.output_path = "" ∧ r.optimized_bytes = r.original_bytes := by
  simp only [process_one] at hr
  cases hg : getsize fs (pathJoin input_folder filename) with
  | none => rw [hg] at hr; exact absurd hr (by simp)
  | some n =>
    rw [hg] at hr
    dsimp only at hr
    split at hr
    · injection hr with h
      subst h
      exact ⟨errStatus_ne_ok _, rfl, rfl⟩
    · exfalso
      rename_i so heq
      split at heq
      · simp at heq
      · rename_i im him
        rw [show save_image (resizeStep max_w max_h im) (pathJoin output_folder filename)
            "avif" quality preserve_metadata false =
            Except.error "AVIF output requested, but pillow-avif-plugin is not installed."
            from rfl] at heq
        simp at heq

/-- C1 witness: the amended theorem instantiated on `fsOk`. -/
theorem avif_unavailable_errors_every_file_witness :
    avifErrRes.status ≠ "ok" ∧ avifErrRes.output_path = "" ∧
      avifErrRes.optimized_bytes = avifErrRes.original_bytes :=
  avif_unavailable_errors_every_file fsOk enc5 "in" "out" "a.jpg" 85 none none false
    avifErrRes (by rfl)

/-! ### Claim C10 -/

/-- C10: a resize bound of `0` is falsy in Python, so `max_w = 0` behaves
exactly like `max_w = None` in `process_one` (and likewise `max_h`); with
both bounds zero, lines 110-111 are skipped entirely — no orientation
correction and no resize. -/
theorem zero_bound_is_unset
    (fs : FS) (enc : SaveCall → Option ℕ)
    (input_folder output_folder filename : String) (quality : ℤ)
    (preserve_metadata : Bool) (target_format : String) (avifEnabled : Bool) :
    (∀ mh, process_one fs enc input_folder output_folder filename quality (some 0) mh
        preserve_metadata target_format avifEnabled =
      process_one fs enc input_folder output_folder filename quality none mh
        preserve_metadata target_format avifEnabled) ∧
    (∀ mw, process_one fs enc input_folder output_folder filename quality mw (some 0)
        preserve_metadata target_format avifEnabled =
      process_one fs enc input_folder output_folder filename quality mw none
        preserve_metadata target_format avifEnabled) ∧
    (∀ im, resizeStep (some 0) (some 0) im = im) := by
  refine ⟨fun mh => ?_, fun mw => ?_, fun im => ?_⟩
  · rfl
  · rfl
  · rfl

/-! ### Claim C9 -/

/-- C9: a nonempty resize string with no `x` (case-insensitive) makes
`parse_resize` raise the configuration error of line 55, and in the main
flow (line 215) that exception aborts the run before anything is dispatched
to the worker pool: `mainRun` returns the error and no per-file work runs. -/
theorem malformed_resize_is_pre_dispatch_error
    (fs : FS) (enc : SaveCall → Option ℕ) (avifEnabled : Bool) (args : Args)
    (h1 : args.resize ≠ "")
    (h2 : ((lowerStr args.resize).data.contains 'x') = false) :
    parse_resize args.resize = Except.error "Resize must look like 1920x1080" ∧
    mainRun fs enc avifEnabled args = Except.error "Resize must look like 1920x1080" := by
  have hp : parse_resize args.resize = Except.error "Resize must look like 1920x1080" := by
    unfold parse_resize
    rw [if_neg h1, if_pos h2]
  refine ⟨hp, ?_⟩
  simp only [mainRun, hp]
  rfl

/-- C9 witness: the resize string `"100"`. -/
theorem malformed_resize_is_pre_dispatch_error_witness :
    parse_resize argsBadResize.resize = Except.error "Resize must look like 1920x1080" ∧
    mainRun fsOk enc5 true argsBadResize = Except.error "Resize must look like 1920x1080" :=
  malformed_resize_is_pre_dispatch_error fsOk enc5 true argsBadResize (by decide) (by rfl)

/-! ### Claim C7 -/

/-- C7 counterexample: a PNG save receives NEITHER `quality` NOR `optimize`
— lines 84-86 set both kwargs under one lossy-format condition, so the
claim that `optimize` is passed on every save (including PNG) is false. -/
theorem png_save_gets_no_optimize :
    save_image imRGB "out/a.png" "png" 85 false true = Except.ok callPng := by rfl

/-- C7 (amended): `quality` and `optimize` are passed together, exactly when
the one condition of lines 84-86 holds — a lossy forced format (jpg, webp,
avif) or no forced format with a lossy source extension; lossless PNG saves
receive neither. -/
theorem save_quality_and_optimize_lossy_only
    (img : PyImage) (out_path target_fmt : String) (quality : ℤ)
    (preserve_metadata avifEnabled : Bool) (call : SaveCall)
    (h : save_image img out_path target_fmt quality preserve_metadata avifEnabled =
      Except.ok call) :
    call.kwargs.quality =
      (if needs_rgb (pilFmt target_fmt) (lowerStr (splitext out_path).2) then some quality
       else none) ∧
    call.kwargs.optimize =
      (if needs_rgb (pilFmt target_fmt) (lowerStr (splitext out_path).2) then some true
       else none) := by
  simp only [save_image] at h
  split at h
  · exact absurd h (by simp)
  · injection h with h2
    subst h2
    exact ⟨rfl, rfl⟩

/-- C7 witness: the forced-`jpg` save of `imRGB` (quality and optimize both
passed). -/
theorem save_quality_and_optimize_lossy_only_witness :
    callJpg.kwargs.quality =
      (if needs_rgb (pilFmt "jpg") (lowerStr (splitext "out/a.jpg").2) then some 85
       else none) ∧
    callJpg.kwargs.optimize =
      (if needs_rgb (pilFmt "jpg") (lowerStr (splitext "out/a.jpg").2) then some true
       else none) :=
  save_quality_and_optimize_lossy_only imRGB "out/a.jpg" "jpg" 85 false true callJpg (by rfl)

/-! ### Claim C8 -/

/-- C8 counterexample: `sizeof_fmt` does NOT return a string for every
non-negative byte count — at `1024 ^ 4` (1 TiB) the unit index is 4 and
`units[i]` raises `IndexError` (modelled as `none`). -/
theorem sizeof_fmt_index_error_at_tb : sizeof_fmt (1024 ^ 4) = none := by
  have hlog : Nat.log 1024 (1024 ^ 4) = 4 := Nat.log_pow (by norm_num) 4
  simp only [sizeof_fmt, hlog]
  rw [if_neg (by norm_num : ¬(1024 ^ 4 = 0))]
  rfl

/-- C8 (amended): for every byte count below `1024 ^ 4`, `sizeof_fmt`
returns exactly the string the claim describes — `"0 B"` for zero,
otherwise the value scaled by the largest applicable binary unit among
B, KB, MB, GB, rounded to two decimals, followed by the unit name
(`sizeof_fmt_claim`); at `1024 ^ 4` and beyond it raises instead. -/
theorem sizeof_fmt_below_tb_matches_claim (n : ℕ) (h : n < 1024 ^ 4) :
    sizeof_fmt n = some (sizeof_fmt_claim n) := by
  simp only [sizeof_fmt, sizeof_fmt_claim]
  by_cases h0 : n = 0
  · rw [if_pos h0, if_pos h0]
  · rw [if_neg h0, if_neg h0]
    have hlog : Nat.log 1024 n < 4 := Nat.log_lt_of_lt_pow h0 h
    have h4 : Nat.log 1024 n = 0 ∨ Nat.log 1024 n = 1 ∨ Nat.log 1024 n = 2 ∨
        Nat.log 1024 n = 3 := by omega
    rcases h4 with h4 | h4 | h4 | h4 <;> rw [h4] <;> rfl

/-- C8 witness: 1536 bytes render as the claim says (1.5 KB territory). -/
theorem sizeof_fmt_below_tb_matches_claim_witness :
    sizeof_fmt 1536 = some (sizeof_fmt_claim 1536) :=
  sizeof_fmt_below_tb_matches_claim 1536 (by decide)

/-! ### Claim C5: destination-path derivation -/

theorem splitOnLast_of_not_mem (c : Char) (l : List Char) (h : c ∉ l) :
    splitOnLast c l = none := by
  induction l with
  | nil => rfl
  | cons a as ih =>
    have h1 : c ∉ as := fun hm => h (List.mem_cons_of_mem a hm)
    have h2 : a ≠ c := fun he => h (he ▸ List.mem_cons_self a as)
    simp only [splitOnLast, ih h1]
    rw [if_neg h2]

theorem splitOnLast_append (c : Char) (p q : List Char) (h : c ∉ q) :
    splitOnLast c (p ++ c :: q) = some (p, q) := by
  induction p with
  | nil =>
    simp [List.nil_append, splitOnLast, splitOnLast_of_not_mem c q h]
  | cons a p ih =>
    simp only [List.cons_append, splitOnLast, List.append_eq, ih]

/-- Joining a slash-terminated directory prefix onto a slash-free basename
commutes with `splitext`'s root. -/
theorem splitextData_slash_append (o f : List Char) (hf : '/' ∉ f) :
    splitextData (o ++ '/' :: f) = (o ++ '/' :: (splitextData f).1, (splitextData f).2) := by
  cases hse : splitOnLast '.' f with
  | none =>
    simp only [splitextData, splitOnLast_append '/' o f hf,
      splitOnLast_of_not_mem '/' f hf, hse]
  | some se =>
    simp only [splitextData, splitOnLast_append '/' o f hf,
      splitOnLast_of_not_mem '/' f hf, hse]
    by_cases hd : se.1.all (fun ch => ch == '.')
    · rw [if_pos hd, if_pos hd]
    · rw [if_neg hd, if_neg hd]
      simp [List.append_assoc]

theorem head_ne_slash {f : List Char} (h : '/' ∉ f) : f.head? ≠ some '/' := by
  cases f with
  | nil => simp
  | cons a as =>
    intro hh
    injection hh with hh
    exact h (hh ▸ List.mem_cons_self a as)

theorem string_append_left_cancel {a b c : String} (h : a ++ b = a ++ c) : b = c := by
  have hd := congrArg String.data h
  rw [String.data_append, String.data_append] at hd
  exact String.ext (List.append_cancel_left hd)

theorem string_append_right_cancel {a b c : String} (h : a ++ c = b ++ c) : a = b := by
  have hd := congrArg String.data h
  rw [String.data_append, String.data_append] at hd
  exact String.ext (List.append_cancel_right hd)

/-- With `original` as target, distinct slash-free filenames join to
distinct paths. -/
theorem pathJoin_inj (out f1 f2 : String)
    (h1 : ('/' : Char) ∉ f1.data) (h2 : ('/' : Char) ∉ f2.data)
    (hne : f1 ≠ f2) : pathJoin out f1 ≠ pathJoin out f2 := by
  unfold pathJoin
  rw [if_neg (head_ne_slash h1), if_neg (head_ne_slash h2)]
  by_cases hc : out = "" ∨ out.data.getLast? = some '/'
  · rw [if_pos hc, if_pos hc]
    exact fun heq => hne (string_append_left_cancel heq)
  · rw [if_neg hc, if_neg hc]
    exact fun heq => hne (string_append_left_cancel heq)

/-- Equality of joined-path `splitext` roots forces equality of the
filenames' own roots, for a slash-terminated prefix and slash-free
filenames. -/
theorem splitext_append_stem_inj (o₁ : List Char) (f1 f2 : String)
    (h1 : ('/' : Char) ∉ f1.data) (h2 : ('/' : Char) ∉ f2.data)
    (heq : String.mk (splitextData (o₁ ++ '/' :: f1.data)).1 =
      String.mk (splitextData (o₁ ++ '/' :: f2.data)).1) :
    (splitext f1).1 = (splitext f2).1 := by
  rw [splitextData_slash_append o₁ f1.data h1, splitextData_slash_append o₁ f2.data h2] at heq
  dsimp only at heq
  injection heq with heq2
  have heq3 := List.append_cancel_left heq2
  injection heq3 with _ heq4
  exact congrArg String.mk heq4

/-- The `splitext` root of a joined path determines the filename's own
`splitext` root (slash-free filenames). -/
theorem forced_stem_inj (out f1 f2 : String)
    (h1 : ('/' : Char) ∉ f1.data) (h2 : ('/' : Char) ∉ f2.data)
    (hstem : (splitext f1).1 ≠ (splitext f2).1) :
    (splitext (pathJoin out f1)).1 ≠ (splitext (pathJoin out f2)).1 := by
  unfold pathJoin
  rw [if_neg (head_ne_slash h1), if_neg (head_ne_slash h2)]
  by_cases hc : out = "" ∨ out.data.getLast? = some '/'
  · rw [if_pos hc, if_pos hc]
    rcases hc with hE | hL
    · subst hE
      intro heq
      apply hstem
      have hd1 : (("" : String) ++ f1).data = f1.data := by
        rw [String.data_append]; rfl
      have hd2 : (("" : String) ++ f2).data = f2.data := by
        rw [String.data_append]; rfl
      unfold splitext at heq ⊢
      rw [hd1, hd2] at heq
      exact heq
    · obtain ⟨o₁, ho⟩ := List.getLast?_eq_some_iff.mp hL
      intro heq
      apply hstem
      have hd1 : (out ++ f1).data = o₁ ++ '/' :: f1.data := by
        rw [String.data_append, ho, List.append_assoc]; rfl
      have hd2 : (out ++ f2).data = o₁ ++ '/' :: f2.data := by
        rw [String.data_append, ho, List.append_assoc]; rfl
      unfold splitext at heq ⊢
      rw [hd1, hd2] at heq
      exact splitext_append_stem_inj o₁ f1 f2 h1 h2 heq
  · rw [if_neg hc, if_neg hc]
    intro heq
    apply hstem
    have hd1 : (out ++ "/" ++ f1).data = out.data ++ '/' :: f1.data := by
      rw [String.data_append, String.data_append, List.append_assoc]; rfl
    have hd2 : (out ++ "/" ++ f2).data = out.data ++ '/' :: f2.data := by
      rw [String.data_append, String.data_append, List.append_assoc]; rfl
    unfold splitext at heq ⊢
    rw [hd1, hd2] at heq
    exact splitext_append_stem_inj out.data f1 f2 h1 h2 heq

/-- C5 counterexample: two distinct batch filenames `a.jpg` and `a.png`
collide on the same destination `out/a.webp` when the `webp` format is
forced — the extension substitution identifies filenames that share a stem. -/
theorem dest_path_collision :
    destPath "out" "a.jpg" "webp" = destPath "out" "a.png" "webp" ∧
      ("a.jpg" : String) ≠ "a.png" :=
  ⟨rfl, by decide⟩

/-- C5 (amended): destination paths of distinct slash-free filenames are
distinct when the target format is `original`; when a format is forced,
they are distinct provided the filenames' stems (`splitext` roots)
differ — filenames sharing a stem collide. -/
theorem dest_paths_distinct
    (output_folder f1 f2 target_fmt : String)
    (h1 : ('/' : Char) ∉ f1.data) (h2 : ('/' : Char) ∉ f2.data)
    (hne : f1 ≠ f2)
    (htf : target_fmt ∈ TARGET_FORMATS)
    (hstem : target_fmt = "original" ∨ (splitext f1).1 ≠ (splitext f2).1) :
    destPath output_folder f1 target_fmt ≠ destPath output_folder f2 target_fmt := by
  have hlist : target_fmt = "original" ∨ target_fmt = "jpg" ∨ target_fmt = "png" ∨
      target_fmt = "webp" ∨ target_fmt = "avif" := by
    simpa [TARGET_FORMATS] using htf
  rcases hlist with h | h | h | h | h <;> subst h
  · exact pathJoin_inj output_folder f1 f2 h1 h2 hne
  · rcases hstem with hO | hst
    · exact absurd hO (by decide)
    · intro heq
      have heq2 : (splitext (pathJoin output_folder f1)).1 ++ ".jpg" =
          (splitext (pathJoin output_folder f2)).1 ++ ".jpg" := heq
      exact forced_stem_inj output_folder f1 f2 h1 h2 hst (string_append_right_cancel heq2)
  · rcases hstem with hO | hst
    · exact absurd hO (by decide)
    · intro heq
      have heq2 : (splitext (pathJoin output_folder f1)).1 ++ ".png" =
          (splitext (pathJoin output_folder f2)).1 ++ ".png" := heq
      exact forced_stem_inj output_folder f1 f2 h1 h2 hst (string_append_right_cancel heq2)
  · rcases hstem with hO | hst
    · exact absurd hO (by decide)
    · intro heq
      have heq2 : (splitext (pathJoin output_folder f1)).1 ++ ".webp" =
          (splitext (pathJoin output_folder f2)).1 ++ ".webp" := heq
      exact forced_stem_inj output_folder f1 f2 h1 h2 hst (string_append_right_cancel heq2)
  · rcases hstem with hO | hst
    · exact absurd hO (by decide)
    · intro heq
      have heq2 : (splitext (pathJoin output_folder f1)).1 ++ ".avif" =
          (splitext (pathJoin output_folder f2)).1 ++ ".avif" := heq
      exact forced_stem_inj output_folder f1 f2 h1 h2 hst (string_append_right_cancel heq2)

/-- C5 witness: `a.jpg` and `b.png` have distinct stems, so their forced
`webp` destinations differ. -/
theorem dest_paths_distinct_witness :
    destPath "out" "a.jpg" "webp" ≠ destPath "out" "b.png" "webp" :=
  dest_paths_distinct "out" "a.jpg" "b.png" "webp" (by decide) (by decide) (by decide)
    (by decide) (Or.inr (by decide))

/-! ### Claim C6: the resize invariant -/

theorem round_aspect_cases (q : ℚ) (k : ℤ → ℚ) :
    round_aspect q k = max ⌊q⌋ 1 ∨ round_aspect q k = max ⌈q⌉ 1 := by
  unfold round_aspect
  split
  · exact Or.inl rfl
  · exact Or.inr rfl

theorem round_aspect_ge_one (q : ℚ) (k : ℤ → ℚ) : 1 ≤ round_aspect q k := by
  rcases round_aspect_cases q k with h | h <;> rw [h] <;> exact le_max_right _ 1

theorem round_aspect_le (q : ℚ) (k : ℤ → ℚ) (x : ℤ) (hq : q ≤ (x : ℚ)) (hx : 1 ≤ x) :
    round_aspect q k ≤ x := by
  have hceil : ⌈q⌉ ≤ x := Int.ceil_le.mpr hq
  have hfloor : ⌊q⌋ ≤ x := le_trans (Int.floor_le_ceil q) hceil
  rcases round_aspect_cases q k with h | h <;> rw [h]
  · exact max_le hfloor hx
  · exact max_le hceil hx

/-- The rounded aspect value is within 1 of the exact value, except when it
was clamped up to 1 (exact value below 1). -/
theorem round_aspect_near (q : ℚ) (k : ℤ → ℚ) (hq : 0 < q) :
    |((round_aspect q k : ℤ) : ℚ) - q| < 1 ∨ (round_aspect q k = 1 ∧ q < 1) := by
  rcases round_aspect_cases q k with h | h
  · by_cases hf : 1 ≤ ⌊q⌋
    · left
      rw [h, max_eq_left hf]
      have h1 := Int.sub_one_lt_floor q
      have h2 := Int.floor_le q
      rw [abs_lt]
      constructor <;> linarith
    · right
      push_neg at hf
      refine ⟨by rw [h, max_eq_right (by omega)], ?_⟩
      have h1 := Int.lt_floor_add_one q
      have hcast : ((⌊q⌋ : ℤ) : ℚ) ≤ 0 := by exact_mod_cast (by omega : ⌊q⌋ ≤ 0)
      linarith
  · left
    have hc : 1 ≤ ⌈q⌉ := by
      by_contra hcon
      push_neg at hcon
      have hc0 : ((⌈q⌉ : ℤ) : ℚ) ≤ 0 := by exact_mod_cast (by omega : ⌈q⌉ ≤ 0)
      linarith [Int.le_ceil q]
    rw [h, max_eq_left hc]
    have h1 := Int.le_ceil q
    have h2 := Int.ceil_lt_add_one q
    rw [abs_lt]
    constructor <;> linarith

/-- Pillow's thumbnail box invariant: the computed size fits the box and
both sides stay at least 1. -/
theorem thumbnailSize_bounds (w h x y : ℤ)
    (hw : 1 ≤ w) (hh : 1 ≤ h) (hx : 1 ≤ x) (hy : 1 ≤ y) :
    (thumbnailSize w h x y).1 ≤ x ∧ (thumbnailSize w h x y).2 ≤ y ∧
    1 ≤ (thumbnailSize w h x y).1 ∧ 1 ≤ (thumbnailSize w h x y).2 := by
  have hw0 : (0 : ℚ) < (w : ℚ) := by exact_mod_cast (by omega : (0 : ℤ) < w)
  have hh0 : (0 : ℚ) < (h : ℚ) := by exact_mod_cast (by omega : (0 : ℤ) < h)
  have hx0 : (0 : ℚ) < (x : ℚ) := by exact_mod_cast (by omega : (0 : ℤ) < x)
  have hy0 : (0 : ℚ) < (y : ℚ) := by exact_mod_cast (by omega : (0 : ℤ) < y)
  simp only [thumbnailSize]
  split
  · rename_i hfit
    exact ⟨hfit.1, hfit.2, hw, hh⟩
  · split
    · rename_i hcmp
      dsimp only
      refine ⟨?_, le_refl y, round_aspect_ge_one _ _, hy⟩
      refine round_aspect_le _ _ _ ?_ hx
      rw [ge_iff_le, div_le_div_iff₀ hh0 hy0] at hcmp
      have hrw : (y : ℚ) * ((w : ℚ) / (h : ℚ)) = (y : ℚ) * (w : ℚ) / (h : ℚ) :=
        (mul_div_assoc _ _ _).symm
      rw [hrw, div_le_iff₀ hh0]
      linarith
    · rename_i hcmp
      dsimp only
      refine ⟨le_refl x, ?_, hx, round_aspect_ge_one _ _⟩
      refine round_aspect_le _ _ _ ?_ hy
      rw [ge_iff_le, not_le] at hcmp
      rw [div_lt_div_iff₀ hy0 hh0] at hcmp
      rw [div_div_eq_mul_div, div_le_iff₀ hw0]
      linarith

/-- Pillow's thumbnail aspect invariant: the cross product of the computed
size against the original one deviates by less than `max w h` — the exact
aspect value is rounded to an adjacent integer (or clamped to 1). -/
theorem thumbnailSize_aspect (w h x y : ℤ)
    (hw : 1 ≤ w) (hh : 1 ≤ h) (hx : 1 ≤ x) (hy : 1 ≤ y) :
    |(thumbnailSize w h x y).1 * h - (thumbnailSize w h x y).2 * w| < max w h := by
  have hw0 : (0 : ℚ) < (w : ℚ) := by exact_mod_cast (by omega : (0 : ℤ) < w)
  have hh0 : (0 : ℚ) < (h : ℚ) := by exact_mod_cast (by omega : (0 : ℤ) < h)
  have hx0 : (0 : ℚ) < (x : ℚ) := by exact_mod_cast (by omega : (0 : ℤ) < x)
  have hy0 : (0 : ℚ) < (y : ℚ) := by exact_mod_cast (by omega : (0 : ℤ) < y)
  have hmax : (0 : ℤ) < max w h := lt_of_lt_of_le (by omega) (le_max_left w h)
  simp only [thumbnailSize]
  split
  · have hz : w * h - h * w = 0 := by ring
    rw [hz, abs_zero]
    exact hmax
  · split
    · rename_i hcmp
      dsimp only
      have hq0 : 0 < (y : ℚ) * ((w : ℚ) / (h : ℚ)) := mul_pos hy0 (div_pos hw0 hh0)
      have hqh : (y : ℚ) * ((w : ℚ) / (h : ℚ)) * (h : ℚ) = (y : ℚ) * (w : ℚ) := by
        field_simp
      rcases round_aspect_near ((y : ℚ) * ((w : ℚ) / (h : ℚ)))
          (fun n => |(w : ℚ) / (h : ℚ) - (n : ℚ) / (y : ℚ)|) hq0 with hnear | ⟨h1, hlt⟩
      · have hQ : |((round_aspect ((y : ℚ) * ((w : ℚ) / (h : ℚ)))
            (fun n => |(w : ℚ) / (h : ℚ) - (n : ℚ) / (y : ℚ)|) : ℤ) : ℚ) * (h : ℚ) -
            (y : ℚ) * (w : ℚ)| < (h : ℚ) := by
          rw [← hqh]
          have hr : ∀ r q : ℚ, r * (h : ℚ) - q * (h : ℚ) = (r - q) * (h : ℚ) := by
            intro r q; ring
          rw [hr, abs_mul, abs_of_pos hh0]
          calc |((round_aspect ((y : ℚ) * ((w : ℚ) / (h : ℚ)))
                (fun n => |(w : ℚ) / (h : ℚ) - (n : ℚ) / (y : ℚ)|) : ℤ) : ℚ) -
                (y : ℚ) * ((w : ℚ) / (h : ℚ))| * (h : ℚ)
              < 1 * (h : ℚ) := mul_lt_mul_of_pos_right hnear hh0
            _ = (h : ℚ) := one_mul _
        have hZ : |round_aspect ((y : ℚ) * ((w : ℚ) / (h : ℚ)))
            (fun n => |(w : ℚ) / (h : ℚ) - (n : ℚ) / (y : ℚ)|) * h - y * w| < h := by
          exact_mod_cast hQ
        exact lt_of_lt_of_le hZ (le_max_right w h)
      · have hyw : (y : ℚ) * (w : ℚ) < (h : ℚ) := by
          rw [← hqh]
          calc (y : ℚ) * ((w : ℚ) / (h : ℚ)) * (h : ℚ)
              < 1 * (h : ℚ) := mul_lt_mul_of_pos_right hlt hh0
            _ = (h : ℚ) := one_mul _
        have hywZ : y * w < h := by exact_mod_cast hyw
        rw [h1]
        have h1yw : 1 ≤ y * w := by nlinarith
        have habs : |1 * h - y * w| = h - y * w := by
          rw [one_mul, abs_of_nonneg (by omega)]
        rw [habs]
        exact lt_of_lt_of_le (by omega) (le_max_right w h)
    · rename_i hcmp
      dsimp only
      have hq0 : 0 < (x : ℚ) / ((w : ℚ) / (h : ℚ)) := div_pos hx0 (div_pos hw0 hh0)
      have hqw : (x : ℚ) / ((w : ℚ) / (h : ℚ)) * (w : ℚ) = (x : ℚ) * (h : ℚ) := by
        field_simp
      rcases round_aspect_near ((x : ℚ) / ((w : ℚ) / (h : ℚ)))
          (fun n => if n = 0 then 0 else |(w : ℚ) / (h : ℚ) - (x : ℚ) / (n : ℚ)|) hq0 with
        hnear | ⟨h1, hlt⟩
      · have hQ : |(x : ℚ) * (h : ℚ) - ((round_aspect ((x : ℚ) / ((w : ℚ) / (h : ℚ)))
            (fun n => if n = 0 then 0 else |(w : ℚ) / (h : ℚ) - (x : ℚ) / (n : ℚ)|) : ℤ) : ℚ) *
            (w : ℚ)| < (w : ℚ) := by
          rw [← hqw]
          have hr : ∀ q r : ℚ, q * (w : ℚ) - r * (w : ℚ) = (q - r) * (w : ℚ) := by
            intro q r; ring
          rw [hr, abs_mul, abs_of_pos hw0]
          have hcomm : |(x : ℚ) / ((w : ℚ) / (h : ℚ)) -
              ((round_aspect ((x : ℚ) / ((w : ℚ) / (h : ℚ)))
              (fun n => if n = 0 then 0 else |(w : ℚ) / (h : ℚ) - (x : ℚ) / (n : ℚ)|) : ℤ) : ℚ)| < 1 := by
            rw [abs_sub_comm]
            exact hnear
          calc |(x : ℚ) / ((w : ℚ) / (h : ℚ)) -
                ((round_aspect ((x : ℚ) / ((w : ℚ) / (h : ℚ)))
                (fun n => if n = 0 then 0 else |(w : ℚ) / (h : ℚ) - (x : ℚ) / (n : ℚ)|) : ℤ) : ℚ)| *
                (w : ℚ)
              < 1 * (w : ℚ) := mul_lt_mul_of_pos_right hcomm hw0
            _ = (w : ℚ) := one_mul _
        have hZ : |x * h - round_aspect ((x : ℚ) / ((w : ℚ) / (h : ℚ)))
            (fun n => if n = 0 then 0 else |(w : ℚ) / (h : ℚ) - (x : ℚ) / (n : ℚ)|) * w| < w := by
          exact_mod_cast hQ
        exact lt_of_lt_of_le hZ (le_max_left w h)
      · have hxh : (x : ℚ) * (h : ℚ) < (w : ℚ) := by
          rw [← hqw]
          calc (x : ℚ) / ((w : ℚ) / (h : ℚ)) * (w : ℚ)
              < 1 * (w : ℚ) := mul_lt_mul_of_pos_right hlt hw0
            _ = (w : ℚ) := one_mul _
        have hxhZ : x * h < w := by exact_mod_cast hxh
        rw [h1]
        have h1xh : 1 ≤ x * h := by nlinarith
        have habs : |x * h - 1 * w| = w - x * h := by
          rw [one_mul, abs_sub_comm, abs_of_nonneg (by omega)]
        rw [habs]
        exact lt_of_lt_of_le (by omega) (le_max_left w h)

theorem truthy_pos {a : ℤ} (ha : 1 ≤ a) : truthy (some a) = true := by
  simp only [truthy, bne_iff_ne, ne_eq]
  omega

theorem orDim_some (a d : ℤ) (ha : a ≠ 0) : orDim (some a) d = a := by
  simp [orDim, ha]

theorem orDim_pos {o : Option ℤ} {d : ℤ} (ho : posBound o) (hd : 1 ≤ d) :
    1 ≤ orDim o d := by
  cases o with
  | none => exact hd
  | some v =>
    have hv : 1 ≤ v := ho
    rw [orDim_some v d (by omega)]
    exact hv

theorem exif_transpose_width_pos {im : PyImage} (hw : 1 ≤ im.width) (hh : 1 ≤ im.height) :
    1 ≤ (exif_transpose im).width := by
  unfold exif_transpose
  split
  · exact hh
  · exact hw

theorem exif_transpose_height_pos {im : PyImage} (hw : 1 ≤ im.width) (hh : 1 ≤ im.height) :
    1 ≤ (exif_transpose im).height := by
  unfold exif_transpose
  split
  · exact hw
  · exact hh

theorem resizeStep_engaged (mw mh : Option ℤ) (im : PyImage)
    (heng : (truthy mw || truthy mh) = true) :
    resizeStep mw mh im =
      { exif_transpose im with
        width := (thumbnailSize (exif_transpose im).width (exif_transpose im).height
          (orDim mw (exif_transpose im).width) (orDim mh (exif_transpose im).height)).1
        height := (thumbnailSize (exif_transpose im).width (exif_transpose im).height
          (orDim mw (exif_transpose im).width) (orDim mh (exif_transpose im).height)).2 } := by
  simp only [resizeStep, heng, if_true]

/-- The spec's concrete scenario: only `max_w = 100` on a 1000×2000 image. -/
theorem resize_scenario_1000 :
    resizeStep (some 100) none im1000 =
      { width := 100, height := 200, mode := "RGB", orientation := 1, hasExif := false } := by
  norm_num [resizeStep, truthy, orDim, exif_transpose, im1000, thumbnailSize, round_aspect]

/-- C6: when at least one resize bound is set (set bounds are positive;
`0` is falsy and acts as unset, claim C10), the processed image satisfies
`width ≤ max_w` and `height ≤ max_h` for whichever bounds are set, while an
unset bound imposes no limit (with both bounds unset nothing is touched);
the aspect ratio of the orientation-corrected image is preserved within
integer-rounding tolerance (cross-product deviation below the larger
dimension); and the spec scenario holds: 1000×2000 with only `max_w = 100`
yields 100×200. -/
theorem resize_respects_bounds_and_aspect
    (im : PyImage) (max_w max_h : Option ℤ)
    (hw : 1 ≤ im.width) (hh : 1 ≤ im.height)
    (hmw : posBound max_w) (hmh : posBound max_h) :
    (∀ v, max_w = some v → (resizeStep max_w max_h im).width ≤ v) ∧
    (∀ v, max_h = some v → (resizeStep max_w max_h im).height ≤ v) ∧
    (max_w = none ∧ max_h = none → resizeStep max_w max_h im = im) ∧
    ((max_w ≠ none ∨ max_h ≠ none) →
      |(resizeStep max_w max_h im).width * (exif_transpose im).height -
          (resizeStep max_w max_h im).height * (exif_transpose im).width| <
        max (exif_transpose im).width (exif_transpose im).height) ∧
    resizeStep (some 100) none im1000 =
      { width := 100, height := 200, mode := "RGB", orientation := 1, hasExif := false } := by
  have hwT := exif_transpose_width_pos hw hh
  have hhT := exif_transpose_height_pos hw hh
  refine ⟨?_, ?_, ?_, ?_, resize_scenario_1000⟩
  · intro v hv
    subst hv
    have hv1 : 1 ≤ v := hmw
    rw [resizeStep_engaged _ _ _ (by rw [truthy_pos hv1]; rfl)]
    dsimp only
    rw [orDim_some v _ (by omega)]
    exact (thumbnailSize_bounds _ _ _ _ hwT hhT hv1 (orDim_pos hmh hhT)).1
  · intro v hv
    subst hv
    have hv1 : 1 ≤ v := hmh
    rw [resizeStep_engaged _ _ _ (by rw [truthy_pos hv1]; simp)]
    dsimp only
    rw [orDim_some v _ (by omega)]
    exact (thumbnailSize_bounds _ _ _ _ hwT hhT (orDim_pos hmw hwT) hv1).2.1
  · rintro ⟨hn1, hn2⟩
    subst hn1
    subst hn2
    rfl
  · intro hor
    have heng : (truthy max_w || truthy max_h) = true := by
      rcases hor with hA | hB
      · cases max_w with
        | none => exact absurd rfl hA
        | some a =>
          have ha : 1 ≤ a := hmw
          rw [truthy_pos ha]
          rfl
      · cases max_h with
        | none => exact absurd rfl hB
        | some a =>
          have ha : 1 ≤ a := hmh
          rw [truthy_pos ha]
          simp
    rw [resizeStep_engaged _ _ _ heng]
    dsimp only
    exact thumbnailSize_aspect _ _ _ _ hwT hhT (orDim_pos hmw hwT) (orDim_pos hmh hhT)

/-- C6 witness: the theorem instantiated at the spec scenario itself. -/
theorem resize_respects_bounds_and_aspect_witness :
    (∀ v, (some 100 : Option ℤ) = some v → (resizeStep (some 100) none im1000).width ≤ v) ∧
    (∀ v, (none : Option ℤ) = some v → (resizeStep (some 100) none im1000).height ≤ v) ∧
    ((some 100 : Option ℤ) = none ∧ (none : Option ℤ) = none →
      resizeStep (some 100) none im1000 = im1000) ∧
    (((some 100 : Option ℤ) ≠ none ∨ (none : Option ℤ) ≠ none) →
      |(resizeStep (some 100) none im1000).width * (exif_transpose im1000).height -
          (resizeStep (some 100) none im1000).height * (exif_transpose im1000).width| <
        max (exif_transpose im1000).width (exif_transpose im1000).height) ∧
    resizeStep (some 100) none im1000 =
      { width := 100, height := 200, mode := "RGB", orientation := 1, hasExif := false } :=
  resize_respects_bounds_and_aspect im1000 (some 100) none (by decide) (by decide)
    (by decide) (by decide)
